import Mathlib

/-!
Verification of the state-reconciliation core of the iamthere watch-party
application.

The definitions below are a shallow embedding of the JavaScript source:

* the `useRoomSync` hook (second document of `src/src/pages/Room.jsx`):
  the engine state (React state plus the refs `isRemoteUpdate`,
  `lastProcessedUpdate`, `currentVideoIdRef`), the room-subscription
  handler (`onRoomData` here, the `subscribeToRoom` callback there), the
  outbound path `updateState` with its wrappers `sendPlay`, `sendPause`,
  `sendSeek`, `loadVideo`, and `sendChatMessage`;
* the `VideoPlayer` component (`src/unnamed/part_002`): the
  `handleStateChange` event handler;
* the Firebase module (second document of `src/src/App.jsx`):
  `sendMessage` and the ordering done by `subscribeToMessages`;
* `extractVideoId` (first document of `src/src/pages/Room.jsx`);
* the settle-delay timer discipline of the remote branch
  (`isRemoteUpdate.current = true` plus an uncancellable
  `setTimeout(() => isRemoteUpdate.current = false, 1000)` per remote
  update), modelled as a chronological event timeline.

Playback positions are rationals, timestamps (`Date.now()` values) are
naturals. Firebase writes are modelled by a `writeOk` flag: the awaited
`updateVideoState` either resolves or throws.
-/

namespace IamThere

/-- The shared playback record stored at the room path: exactly the five
fields the sync engine reads and writes (`videoId`, `isPlaying`,
`currentTime`, `lastUpdated`, `updatedBy`). -/
structure RoomData where
  videoId : String
  isPlaying : Bool
  currentTime : ℚ
  lastUpdated : ℕ
  updatedBy : String
deriving DecidableEq

/-- Per-client engine state of `useRoomSync`: the local projection kept in
React state (`roomState`) plus the three refs `isRemoteUpdate`,
`lastProcessedUpdate` and `currentVideoIdRef` (named `currentVideoId`). -/
structure SyncState where
  roomState : RoomData
  isRemoteUpdate : Bool
  lastProcessedUpdate : ℕ
  currentVideoId : String
deriving DecidableEq

/-- The view of the YouTube player the handler reads:
`getCurrentTime()` and `getPlayerState()` (1 means playing). -/
structure Player where
  currentTime : ℚ
  playerState : ℤ
deriving DecidableEq

/-- Commands the engine issues to the player. `delayedPause d` models
`setTimeout(() => player.pauseVideo(), d)`, the follow-up pause scheduled
after a load. -/
inductive PlayerCmd where
  | loadVideoById (videoId : String) (startSeconds : ℚ)
  | seekTo (seconds : ℚ) (allowSeekAhead : Bool)
  | playVideo
  | pauseVideo
  | delayedPause (delayMs : ℕ)
deriving DecidableEq

/-- JavaScript `x || 0` applied to a number that is present and not NaN:
0 maps to 0 and every other value passes through. -/
def orZero (x : ℚ) : ℚ := if x = 0 then 0 else x

/-- The `SEEK_THRESHOLD` constant of `useRoomSync` (seconds). -/
def SEEK_THRESHOLD : ℚ := 2

/-- Initial React state of `useRoomSync`: empty video, paused, t = 0. -/
def initialRoomState : RoomData := ⟨"", false, 0, 0, ""⟩

/-- Engine state at mount: refs start at false / 0 / empty string. -/
def initialSyncState : SyncState := ⟨initialRoomState, false, 0, ""⟩

/-- Commands of the load-new-video branch of the room callback:
`player.loadVideoById(data.videoId, data.currentTime || 0)` plus, when the
incoming state is paused, the 500 ms delayed `pauseVideo`. -/
def loadCmds (d : RoomData) : List PlayerCmd :=
  PlayerCmd.loadVideoById d.videoId (orZero d.currentTime) ::
    (if d.isPlaying = true then [] else [PlayerCmd.delayedPause 500])

/-- Commands of the same-video branch of the remote path: a seek guarded
by `SEEK_THRESHOLD` against `player.getCurrentTime?.() || 0`, then the
play/pause reconciliation against `getPlayerState` (1 = playing). -/
def reconcileCmds (pl : Player) (d : RoomData) : List PlayerCmd :=
  (if SEEK_THRESHOLD < |orZero pl.currentTime - d.currentTime| then
      [PlayerCmd.seekTo d.currentTime true]
    else []) ++
  (if d.isPlaying = true ∧ ¬pl.playerState = 1 then [PlayerCmd.playVideo]
    else if ¬d.isPlaying = true ∧ pl.playerState = 1 then [PlayerCmd.pauseVideo]
    else [])

/-- First statement of the room callback: initialize `currentVideoIdRef`
on first load if it is still empty and the update carries a video id. -/
def afterInit (d : RoomData) (s : SyncState) : SyncState :=
  if s.currentVideoId = "" ∧ ¬d.videoId = "" then
    { s with currentVideoId := d.videoId }
  else s

/-- Body of the room callback after the ref initialization: the staleness
check, the own-update branch, and the remote branch. Returns the new
engine state, the player commands issued in order, and whether the
1000 ms settle timer clearing `isRemoteUpdate` was armed. The connection
flags (`setIsConnected`, `setIsLoading`, `setError`) are UI state and are
not modelled. -/
def onRoomDataCore (userName : String) (player : Option Player)
    (d : RoomData) (s : SyncState) : SyncState × List PlayerCmd × Bool :=
  if d.lastUpdated ≤ s.lastProcessedUpdate then
    (s, [], false)
  else if d.updatedBy = userName then
    match player with
    | some _ =>
        if ¬d.videoId = "" ∧ ¬d.videoId = s.currentVideoId then
          ({ s with
              currentVideoId := d.videoId, roomState := d,
              lastProcessedUpdate := d.lastUpdated }, loadCmds d, false)
        else
          ({ s with
              roomState := d, lastProcessedUpdate := d.lastUpdated },
            [], false)
    | none =>
        ({ s with
            roomState := d, lastProcessedUpdate := d.lastUpdated },
          [], false)
  else
    match player with
    | none =>
        ({ s with
            isRemoteUpdate := true, roomState := d,
            lastProcessedUpdate := d.lastUpdated }, [], true)
    | some pl =>
        if ¬d.videoId = "" ∧ ¬d.videoId = s.currentVideoId then
          ({ s with
              isRemoteUpdate := true, roomState := d,
              currentVideoId := d.videoId,
              lastProcessedUpdate := d.lastUpdated }, loadCmds d, true)
        else
          ({ s with
              isRemoteUpdate := true, roomState := d,
              lastProcessedUpdate := d.lastUpdated },
            reconcileCmds pl d, true)

/-- The `subscribeToRoom` callback of `useRoomSync` (the whole handler):
ref initialization followed by the staleness / own-update / remote-update
logic. -/
def onRoomData (userName : String) (player : Option Player) (d : RoomData)
    (s : SyncState) : SyncState × List PlayerCmd × Bool :=
  onRoomDataCore userName player d (afterInit d s)

/-- The optional fields passed to `updateState` by the four senders; the
`??` merge falls back to the engine projection when a field is absent. -/
structure UpdatePayload where
  videoId : Option String
  isPlaying : Option Bool
  currentTime : Option ℚ
deriving DecidableEq

/-- The merged record `updateState` writes: payload fields over the
current projection, with a fresh `lastUpdated` and this client as
`updatedBy`. -/
def mergedState (userName : String) (now : ℕ) (p : UpdatePayload)
    (s : SyncState) : RoomData :=
  { videoId := p.videoId.getD s.roomState.videoId
    isPlaying := p.isPlaying.getD s.roomState.isPlaying
    currentTime := p.currentTime.getD s.roomState.currentTime
    lastUpdated := now
    updatedBy := userName }

/-- `updateState` of `useRoomSync`. `writeOk` says whether the awaited
`updateVideoState` call resolves; `now` stands for `Date.now()`. Result:
the new engine state, the record published to the store (`none` when
nothing was written), and the error message set by the catch branch.
Note the source awaits the write and only then runs `setRoomState`, so
the projection changes only in the `writeOk` branch. -/
def updateState (roomId userName : String) (writeOk : Bool) (now : ℕ)
    (p : UpdatePayload) (s : SyncState) :
    SyncState × Option RoomData × Option String :=
  if s.isRemoteUpdate = true then (s, none, none)
  else if roomId = "" ∨ userName = "" then (s, none, none)
  else if writeOk = true then
    ({ s with roomState := mergedState userName now p s },
      some (mergedState userName now p s), none)
  else (s, none, some "Failed to sync video state")

/-- `sendPlay`: play at the given position. -/
def sendPlay (roomId userName : String) (writeOk : Bool) (now : ℕ) (t : ℚ)
    (s : SyncState) : SyncState × Option RoomData × Option String :=
  updateState roomId userName writeOk now ⟨none, some true, some t⟩ s

/-- `sendPause`: pause at the given position. -/
def sendPause (roomId userName : String) (writeOk : Bool) (now : ℕ) (t : ℚ)
    (s : SyncState) : SyncState × Option RoomData × Option String :=
  updateState roomId userName writeOk now ⟨none, some false, some t⟩ s

/-- `sendSeek`: new position together with the current playing flag. -/
def sendSeek (roomId userName : String) (writeOk : Bool) (now : ℕ) (t : ℚ)
    (playing : Bool) (s : SyncState) :
    SyncState × Option RoomData × Option String :=
  updateState roomId userName writeOk now ⟨none, some playing, some t⟩ s

/-- `loadVideo`: new video id, position reset to 0, auto-play forced. -/
def loadVideo (roomId userName : String) (writeOk : Bool) (now : ℕ)
    (vid : String) (s : SyncState) :
    SyncState × Option RoomData × Option String :=
  updateState roomId userName writeOk now ⟨some vid, some true, some 0⟩ s

/-- Refs of the `VideoPlayer` component read by `handleStateChange`. -/
structure PlayerRefs where
  lastReportedTime : ℚ
  isSeeking : Bool
deriving DecidableEq

/-- The callback `handleStateChange` forwards to the hook: `onSeek`,
`onPlay` or `onPause` with the current time. -/
inductive Report where
  | seek (t : ℚ) (playing : Bool)
  | play (t : ℚ)
  | pause (t : ℚ)
deriving DecidableEq

/-- `handleStateChange` of the `VideoPlayer` component. `suppress` is the
value of `isRemoteUpdateInProgress()`; `stateCode` is the YouTube player
state (1 playing, 2 paused, 3 buffering, 0 ended); the result is the
report forwarded to the hook (if any) and the new component refs. -/
def handleStateChange (suppress : Bool) (stateCode : ℤ) (currentTime : ℚ)
    (r : PlayerRefs) : Option Report × PlayerRefs :=
  if suppress = true then (none, r)
  else if stateCode = 1 then
    if 2 < |currentTime - r.lastReportedTime| ∧ r.isSeeking = false then
      (some (Report.seek currentTime true), ⟨currentTime, false⟩)
    else
      (some (Report.play currentTime), ⟨currentTime, false⟩)
  else if stateCode = 2 then
    if 2 < |currentTime - r.lastReportedTime| then
      (some (Report.seek currentTime false), ⟨currentTime, true⟩)
    else
      (some (Report.pause currentTime), ⟨currentTime, r.isSeeking⟩)
  else if stateCode = 3 then
    if 2 < |currentTime - r.lastReportedTime| then
      (none, ⟨r.lastReportedTime, true⟩)
    else (none, r)
  else (none, r)

/-- ECMAScript whitespace recognised by `String.prototype.trim`:
WhiteSpace (TAB, VT, FF, SP, NBSP, BOM, Unicode Zs) and LineTerminator
(LF, CR, LS, PS). -/
def isJsWs (c : Char) : Bool :=
  c == ' ' || c == '\t' || c == '\n' || c == '\r' || c == '\x0b'
    || c == '\x0c' || c == '\u00A0' || c == '\uFEFF' || c == '\u1680'
    || (decide ('\u2000' ≤ c) && decide (c ≤ '\u200A'))
    || c == '\u2028' || c == '\u2029' || c == '\u202F' || c == '\u205F'
    || c == '\u3000'

/-- JavaScript `trim` on the character list: drop whitespace from both
ends. -/
def jsTrimList (l : List Char) : List Char :=
  ((l.dropWhile isJsWs).reverse.dropWhile isJsWs).reverse

/-- JavaScript `String.prototype.trim`. -/
def jsTrim (s : String) : String := ⟨jsTrimList s.data⟩

/-- A character matched by the video-id character class
`[a-zA-Z0-9_-]`. -/
def isIdChar (c : Char) : Bool :=
  (decide ('a' ≤ c) && decide (c ≤ 'z'))
    || (decide ('A' ≤ c) && decide (c ≤ 'Z'))
    || (decide ('0' ≤ c) && decide (c ≤ '9'))
    || c == '_' || c == '-'

/-- Leftmost match of the regular expression `[a-zA-Z0-9_-]{11}` (the
fallback in the catch branch of `extractVideoId`). -/
def firstIdRun : List Char → Option String
  | [] => none
  | c :: cs =>
      if 11 ≤ (c :: cs).length ∧ ((c :: cs).take 11).all isIdChar = true then
        some ⟨(c :: cs).take 11⟩
      else firstIdRun cs

/-- The parts of a parsed URL that `extractVideoId` inspects: `hostname`,
`pathname` and `searchParams.get` of the `v` parameter (`none` when the
parameter is absent). -/
structure UrlView where
  hostname : String
  pathname : String
  queryV : Option String

/-- Substring test on character lists (JavaScript `String.includes`). -/
def hasSub (pat : List Char) : List Char → Bool
  | [] => pat.isEmpty
  | c :: cs => pat.isPrefixOf (c :: cs) || hasSub pat cs

/-- The URL branches of `extractVideoId` (inside the try block, after
`new URL` succeeded): the youtube.com watch / embed / shorts paths and
the youtu.be path, falling through to the final `return null`. The
`split` calls of the source take the path segment after the literal
marker up to a `?`; a second occurrence of the marker inside the path is
not modelled. -/
def extractFromUrl (url : UrlView) : Option String :=
  if hasSub "youtube.com".data url.hostname.data = true
      ∧ url.pathname = "/watch" then
    url.queryV
  else if hasSub "youtube.com".data url.hostname.data = true
      ∧ url.pathname.startsWith "/embed/" = true then
    some ((url.pathname.drop 7).takeWhile (fun c => c != '?'))
  else if hasSub "youtube.com".data url.hostname.data = true
      ∧ url.pathname.startsWith "/shorts/" = true then
    some ((url.pathname.drop 8).takeWhile (fun c => c != '?'))
  else if url.hostname = "youtu.be" then
    some ((url.pathname.drop 1).takeWhile (fun c => c != '?'))
  else none

/-- `extractVideoId` of `Room.jsx`. `parseUrl` stands for the `new URL`
constructor: `none` models the constructor throwing. A `none` input
models a null/undefined argument (JavaScript `!input`). -/
def extractVideoId (parseUrl : String → Option UrlView)
    (input : Option String) : Option String :=
  match input with
  | none => none
  | some s =>
      if s = "" ∨ jsTrim s = "" then none
      else if (jsTrim s).length = 11 ∧ (jsTrim s).data.all isIdChar = true then
        some (jsTrim s)
      else
        match parseUrl (jsTrim s) with
        | some url => extractFromUrl url
        | none => firstIdRun (jsTrim s).data

/-- A chat record pushed by the Firebase `sendMessage`: sender, text and
`Date.now()` timestamp. -/
structure SentMessage where
  sender : String
  text : String
  timestamp : ℕ
deriving DecidableEq

/-- `sendChatMessage` of `useRoomSync` composed with `sendMessage` of the
Firebase module: blank text (after trim) or a missing room id / user name
aborts, otherwise the trimmed text is pushed. There is no upper length
check in this path. -/
def sendChatMessage (roomId userName text : String) (now : ℕ) :
    Option SentMessage :=
  if jsTrim text = "" ∨ roomId = "" ∨ userName = "" then none
  else some ⟨userName, jsTrim text, now⟩

/-- A chat message as delivered to the subscriber: the push key plus the
stored payload. -/
structure ChatMsg where
  id : String
  sender : String
  text : String
  timestamp : ℕ
deriving DecidableEq

/-- Payload stored under a push key in the messages collection. -/
structure MsgPayload where
  sender : String
  text : String
  timestamp : ℕ
deriving DecidableEq

/-- Comparator of `subscribeToMessages`: ascending `timestamp`
(JavaScript `(a, b) => a.timestamp - b.timestamp` under a stable sort). -/
def msgLe (a b : ChatMsg) : Prop := a.timestamp ≤ b.timestamp

instance : DecidableRel msgLe :=
  fun a b => inferInstanceAs (Decidable (a.timestamp ≤ b.timestamp))

instance : IsTotal ChatMsg msgLe :=
  ⟨fun a b => Nat.le_total a.timestamp b.timestamp⟩

instance : IsTrans ChatMsg msgLe :=
  ⟨fun _ _ _ => Nat.le_trans⟩

/-- The stable ascending-by-timestamp sort `subscribeToMessages` applies
before invoking the callback. -/
def sortMessages (l : List ChatMsg) : List ChatMsg :=
  List.insertionSort msgLe l

/-- The `snapshot.forEach` loop of `subscribeToMessages`: each child
becomes a message carrying its push key as `id`, in store order. -/
def snapshotToList (stored : List (String × MsgPayload)) : List ChatMsg :=
  stored.map fun e => ⟨e.1, e.2.sender, e.2.text, e.2.timestamp⟩

/-- The list handed to the subscriber callback by `subscribeToMessages`:
the full snapshot, sorted by timestamp ascending. -/
def subscribeToMessagesView (stored : List (String × MsgPayload)) :
    List ChatMsg :=
  sortMessages (snapshotToList stored)

/-- One action on the `isRemoteUpdate` ref: a remote update sets it, a
settle-timer callback clears it (`Room.jsx` second document, remote
branch). -/
inductive FlagEvent where
  | set
  | clear
deriving DecidableEq

/-- Effect of one timeline event on the flag: sets overwrite with true,
clears overwrite with false (the timer callback clears unconditionally). -/
def applyEvent (_b : Bool) (e : ℕ × FlagEvent) : Bool :=
  match e.2 with
  | FlagEvent.set => true
  | FlagEvent.clear => false

/-- Insert a timed event into a chronologically sorted list. -/
def insertEvent (e : ℕ × FlagEvent) :
    List (ℕ × FlagEvent) → List (ℕ × FlagEvent)
  | [] => [e]
  | f :: fs => if e.1 < f.1 then e :: f :: fs else f :: insertEvent e fs

/-- Sort timed events chronologically. -/
def sortEvents (l : List (ℕ × FlagEvent)) : List (ℕ × FlagEvent) :=
  l.foldr insertEvent []

/-- The event timeline generated by a list of remote-update arrival
times: each update at time u sets the flag at u and arms an uncancellable
timer that clears it at u + delay. -/
def settleTimeline (updates : List ℕ) (delay : ℕ) :
    List (ℕ × FlagEvent) :=
  sortEvents (updates.map (fun u => (u, FlagEvent.set))
    ++ updates.map (fun u => (u + delay, FlagEvent.clear)))

/-- Whether outbound suppression (`isRemoteUpdate`) is in effect at query
time q: the flag after replaying, in chronological order, every event
with time at most q, starting from false. -/
def suppressedAt (updates : List ℕ) (delay q : ℕ) : Bool :=
  ((settleTimeline updates delay).filter
    (fun e => decide (e.1 ≤ q))).foldl applyEvent false

/-- On rationals (present, non-NaN numbers), the JavaScript `|| 0` guard
is the identity. -/
theorem orZero_self (x : ℚ) : orZero x = x := by
  unfold orZero
  split <;> simp_all

/-- The ref initialization never touches `lastProcessedUpdate`. -/
theorem afterInit_lastProcessedUpdate (d : RoomData) (s : SyncState) :
    (afterInit d s).lastProcessedUpdate = s.lastProcessedUpdate := by
  unfold afterInit
  split <;> rfl

/-- The ref initialization never touches `isRemoteUpdate`. -/
theorem afterInit_isRemoteUpdate (d : RoomData) (s : SyncState) :
    (afterInit d s).isRemoteUpdate = s.isRemoteUpdate := by
  unfold afterInit
  split <;> rfl

/-- With a nonempty `currentVideoIdRef` the initialization is a no-op. -/
theorem afterInit_eq_of_ne (d : RoomData) (s : SyncState)
    (h : ¬s.currentVideoId = "") : afterInit d s = s := by
  unfold afterInit
  rw [if_neg]
  intro hc
  exact h hc.1

/-- When the update does not change the (possibly empty) known video id,
the initialization is a no-op. -/
theorem afterInit_eq_of_same (d : RoomData) (s : SyncState)
    (h : ¬(¬d.videoId = "" ∧ ¬d.videoId = s.currentVideoId)) :
    afterInit d s = s := by
  unfold afterInit
  rw [if_neg]
  intro hc
  obtain ⟨h1, h2⟩ := hc
  exact h ⟨h2, fun he => h2 (he.trans h1)⟩

/-- A stale update is discarded by the core: no state change, no command,
no timer. -/
theorem core_stale (u : String) (p : Option Player) (d : RoomData)
    (s : SyncState) (h : d.lastUpdated ≤ s.lastProcessedUpdate) :
    onRoomDataCore u p d s = (s, [], false) := by
  unfold onRoomDataCore
  rw [if_pos h]

/-- `lastProcessedUpdate` either stays (stale case) or is reassigned to a
strictly larger `d.lastUpdated`. -/
theorem core_lpu (u : String) (p : Option Player) (d : RoomData)
    (s : SyncState) :
    ((onRoomDataCore u p d s).1.lastProcessedUpdate = s.lastProcessedUpdate
        ∧ d.lastUpdated ≤ s.lastProcessedUpdate)
    ∨ ((onRoomDataCore u p d s).1.lastProcessedUpdate = d.lastUpdated
        ∧ s.lastProcessedUpdate < d.lastUpdated) := by
  by_cases h : d.lastUpdated ≤ s.lastProcessedUpdate
  · left
    rw [core_stale u p d s h]
    exact ⟨rfl, h⟩
  · right
    refine ⟨?_, not_le.mp h⟩
    unfold onRoomDataCore
    rw [if_neg h]
    by_cases hown : d.updatedBy = u
    · rw [if_pos hown]
      cases p with
      | none => rfl
      | some pl =>
          dsimp only
          by_cases hv : ¬d.videoId = "" ∧ ¬d.videoId = s.currentVideoId
          · rw [if_pos hv]
          · rw [if_neg hv]
    · rw [if_neg hown]
      cases p with
      | none => rfl
      | some pl =>
          dsimp only
          by_cases hv : ¬d.videoId = "" ∧ ¬d.videoId = s.currentVideoId
          · rw [if_pos hv]
          · rw [if_neg hv]

/-- A fresh update from the peer always sets the suppression flag. -/
theorem core_remote_flag (u : String) (p : Option Player) (d : RoomData)
    (s : SyncState) (hfresh : s.lastProcessedUpdate < d.lastUpdated)
    (hremote : ¬d.updatedBy = u) :
    (onRoomDataCore u p d s).1.isRemoteUpdate = true := by
  unfold onRoomDataCore
  rw [if_neg (not_le.mpr hfresh), if_neg hremote]
  cases p with
  | none => rfl
  | some pl =>
      dsimp only
      by_cases hv : ¬d.videoId = "" ∧ ¬d.videoId = s.currentVideoId
      · rw [if_pos hv]
      · rw [if_neg hv]

/-- A fresh remote update on the same video takes the reconcile branch. -/
theorem core_remote_reconcile (u : String) (pl : Player) (d : RoomData)
    (s : SyncState) (hfresh : s.lastProcessedUpdate < d.lastUpdated)
    (hremote : ¬d.updatedBy = u)
    (hsame : ¬(¬d.videoId = "" ∧ ¬d.videoId = s.currentVideoId)) :
    onRoomDataCore u (some pl) d s
      = ({ s with
            isRemoteUpdate := true, roomState := d,
            lastProcessedUpdate := d.lastUpdated },
          reconcileCmds pl d, true) := by
  unfold onRoomDataCore
  rw [if_neg (not_le.mpr hfresh), if_neg hremote]
  dsimp only
  rw [if_neg hsame]

/-- A fresh remote update carrying a different, nonempty video id takes
the load branch. -/
theorem core_remote_load (u : String) (pl : Player) (d : RoomData)
    (s : SyncState) (hfresh : s.lastProcessedUpdate < d.lastUpdated)
    (hremote : ¬d.updatedBy = u) (hvid : ¬d.videoId = "")
    (hdiff : ¬d.videoId = s.currentVideoId) :
    onRoomDataCore u (some pl) d s
      = ({ s with
            isRemoteUpdate := true, roomState := d,
            currentVideoId := d.videoId,
            lastProcessedUpdate := d.lastUpdated },
          loadCmds d, true) := by
  unfold onRoomDataCore
  rw [if_neg (not_le.mpr hfresh), if_neg hremote]
  dsimp only
  rw [if_pos ⟨hvid, hdiff⟩]

/-- After any delivery the processed timestamp is at least the
timestamp of the delivered update. -/
theorem onRoomData_lpu_ge (u : String) (p : Option Player) (d : RoomData)
    (s : SyncState) :
    d.lastUpdated ≤ (onRoomData u p d s).1.lastProcessedUpdate := by
  unfold onRoomData
  rcases core_lpu u p d (afterInit d s) with ⟨he, hle⟩ | ⟨he, _⟩
  · rw [he]
    exact hle
  · rw [he]

/-- If the position difference is within the threshold, the reconcile
branch issues no seek. -/
theorem reconcile_no_seek (pl : Player) (d : RoomData)
    (h : |pl.currentTime - d.currentTime| ≤ SEEK_THRESHOLD) :
    ∀ x b, PlayerCmd.seekTo x b ∉ reconcileCmds pl d := by
  intro x b
  unfold reconcileCmds
  rw [orZero_self, if_neg (not_lt.mpr h)]
  simp only [List.nil_append]
  split_ifs <;> simp

/-- If the position difference exceeds the threshold, the reconcile
branch seeks to the incoming position. -/
theorem reconcile_seek_mem (pl : Player) (d : RoomData)
    (h : SEEK_THRESHOLD < |pl.currentTime - d.currentTime|) :
    PlayerCmd.seekTo d.currentTime true ∈ reconcileCmds pl d := by
  unfold reconcileCmds
  rw [orZero_self, if_pos h]
  exact List.mem_append_left _ (List.mem_singleton_self _)

/-- Claim C1: while the suppression flag is set, every local-report call
(`sendPlay`, `sendPause`, `sendSeek`, `loadVideo`, all routed through
`updateState`) is a no-op — nothing is published and the local projection
is unchanged; the player's `handleStateChange` forwards nothing while
`isRemoteUpdateInProgress()` is true and leaves its refs untouched; and
every fresh remote update with `updatedBy` different from this client
sets the suppression flag, so adapter events fired during the suppression
window produce no outbound publish. -/
theorem suppression_no_echo :
    (∀ roomId userName writeOk now t playing vid s,
      s.isRemoteUpdate = true →
        sendPlay roomId userName writeOk now t s = (s, none, none)
        ∧ sendPause roomId userName writeOk now t s = (s, none, none)
        ∧ sendSeek roomId userName writeOk now t playing s = (s, none, none)
        ∧ loadVideo roomId userName writeOk now vid s = (s, none, none))
    ∧ (∀ stateCode t r, handleStateChange true stateCode t r = (none, r))
    ∧ (∀ u p d s, s.lastProcessedUpdate < d.lastUpdated →
        ¬d.updatedBy = u → (onRoomData u p d s).1.isRemoteUpdate = true) := by
  refine ⟨?_, ?_, ?_⟩
  · intro roomId userName writeOk now t playing vid s h
    refine ⟨?_, ?_, ?_, ?_⟩ <;>
      simp [sendPlay, sendPause, sendSeek, loadVideo, updateState, h]
  · intro stateCode t r
    unfold handleStateChange
    rw [if_pos rfl]
  · intro u p d s hfresh hremote
    unfold onRoomData
    apply core_remote_flag
    · rw [afterInit_lastProcessedUpdate]
      exact hfresh
    · exact hremote

/-- Instance of C1 at concrete inputs: a suppressed `sendPlay` is a
no-op, a suppressed player event forwards nothing, and a fresh remote
update sets the flag. -/
theorem suppression_no_echo_instance :
    sendPlay "R" "alice" true 5 1 ⟨initialRoomState, true, 0, ""⟩
      = (⟨initialRoomState, true, 0, ""⟩, none, none)
    ∧ handleStateChange true 1 10 ⟨0, false⟩ = (none, ⟨0, false⟩)
    ∧ (onRoomData "alice" none ⟨"abc", true, 0, 50, "bob"⟩
        initialSyncState).1.isRemoteUpdate = true :=
  ⟨(suppression_no_echo.1 "R" "alice" true 5 1 false "v"
      ⟨initialRoomState, true, 0, ""⟩ rfl).1,
    suppression_no_echo.2.1 1 10 ⟨0, false⟩,
    suppression_no_echo.2.2 "alice" none ⟨"abc", true, 0, 50, "bob"⟩
      initialSyncState (by decide) (by decide)⟩

/-- Counterexample to claim C2 as stated: a stale update (timestamp equal
to `lastProcessedUpdate`) does change engine state — the empty
`currentVideoIdRef` is initialized from the update before the staleness
check runs. -/
theorem stale_update_state_change_cx :
    (⟨"abc", false, 0, 100, "bob"⟩ : RoomData).lastUpdated
        ≤ (⟨initialRoomState, false, 100, ""⟩ : SyncState).lastProcessedUpdate
    ∧ ¬(onRoomData "alice" none ⟨"abc", false, 0, 100, "bob"⟩
          ⟨initialRoomState, false, 100, ""⟩).1
        = ⟨initialRoomState, false, 100, ""⟩
    ∧ (onRoomData "alice" none ⟨"abc", false, 0, 100, "bob"⟩
          ⟨initialRoomState, false, 100, ""⟩).1.currentVideoId = "abc" := by
  decide

/-- Claim C2 (amended): a stale update (`lastUpdated` at most
`lastProcessedUpdate`) is discarded — no player command, no settle timer,
and no engine state change except the one-time initialization of the
empty `currentVideoIdRef`; consequently redelivering any already
processed update yields no player command, so applying the same state
twice gives one effective adapter transition, and of out-of-order
updates 100 then 90 the second is discarded. -/
theorem stale_update_discard :
    (∀ u p d s, d.lastUpdated ≤ s.lastProcessedUpdate →
        onRoomData u p d s = (afterInit d s, [], false))
    ∧ (∀ u p d s,
        onRoomData u p d (onRoomData u p d s).1
          = (afterInit d (onRoomData u p d s).1, [], false)) := by
  have key : ∀ (u : String) (p : Option Player) (d : RoomData)
      (s : SyncState), d.lastUpdated ≤ s.lastProcessedUpdate →
      onRoomData u p d s = (afterInit d s, [], false) := by
    intro u p d s h
    unfold onRoomData
    apply core_stale
    rw [afterInit_lastProcessedUpdate]
    exact h
  refine ⟨key, ?_⟩
  intro u p d s
  exact key u p d (onRoomData u p d s).1 (onRoomData_lpu_ge u p d s)

/-- Instance of C2 (amended) at concrete inputs: with
`lastProcessedUpdate = 100` an update stamped 90 is discarded without
commands, and redelivering an update stamped 100 right after processing
it yields no command. -/
theorem stale_update_discard_instance :
    onRoomData "alice" none ⟨"abc", false, 0, 90, "bob"⟩
        ⟨initialRoomState, false, 100, "abc"⟩
      = (⟨initialRoomState, false, 100, "abc"⟩, [], false)
    ∧ (onRoomData "alice" none ⟨"xyz", true, 3, 100, "bob"⟩
        (onRoomData "alice" none ⟨"xyz", true, 3, 100, "bob"⟩
          initialSyncState).1).2.1 = [] := by
  constructor
  · have h := stale_update_discard.1 "alice" none ⟨"abc", false, 0, 90, "bob"⟩
      ⟨initialRoomState, false, 100, "abc"⟩ (by decide)
    rw [h]
    decide
  · have h := stale_update_discard.2 "alice" none ⟨"xyz", true, 3, 100, "bob"⟩
      initialSyncState
    rw [h]

/-- Claim C3: in the same-media branch of remote-update handling (fresh
update, from the peer, not a nonempty media change), a position within
`SEEK_THRESHOLD = 2` seconds of the player position never yields a
`seekTo` command, and a position farther than 2 seconds always yields
`seekTo` to the incoming position. -/
theorem seek_threshold_respect (u : String) (pl : Player) (d : RoomData)
    (s : SyncState)
    (hfresh : s.lastProcessedUpdate < d.lastUpdated)
    (hremote : ¬d.updatedBy = u)
    (hsame : ¬(¬d.videoId = "" ∧ ¬d.videoId = s.currentVideoId)) :
    SEEK_THRESHOLD = 2
    ∧ (|pl.currentTime - d.currentTime| ≤ SEEK_THRESHOLD →
        ∀ x b, PlayerCmd.seekTo x b ∉ (onRoomData u (some pl) d s).2.1)
    ∧ (SEEK_THRESHOLD < |pl.currentTime - d.currentTime| →
        PlayerCmd.seekTo d.currentTime true ∈ (onRoomData u (some pl) d s).2.1) := by
  have hinit : afterInit d s = s := afterInit_eq_of_same d s hsame
  have hcmds : (onRoomData u (some pl) d s).2.1 = reconcileCmds pl d := by
    unfold onRoomData
    rw [hinit, core_remote_reconcile u pl d s hfresh hremote hsame]
  refine ⟨rfl, ?_, ?_⟩
  · intro h x b
    rw [hcmds]
    exact reconcile_no_seek pl d h x b
  · intro h
    rw [hcmds]
    exact reconcile_seek_mem pl d h

/-- Instance of C3 at concrete inputs: player at 0 with the same video
loaded — an incoming position 50 yields a seek, an incoming position 1
yields none. -/
theorem seek_threshold_respect_instance :
    PlayerCmd.seekTo 50 true
      ∈ (onRoomData "alice" (some ⟨0, 2⟩) ⟨"abc", true, 50, 100, "bob"⟩
          ⟨initialRoomState, false, 0, "abc"⟩).2.1
    ∧ (∀ x b, PlayerCmd.seekTo x b
        ∉ (onRoomData "alice" (some ⟨0, 2⟩) ⟨"abc", true, 1, 100, "bob"⟩
            ⟨initialRoomState, false, 0, "abc"⟩).2.1) :=
  ⟨(seek_threshold_respect "alice" ⟨0, 2⟩ ⟨"abc", true, 50, 100, "bob"⟩
      ⟨initialRoomState, false, 0, "abc"⟩ (by decide) (by decide)
      (by decide)).2.2 (by norm_num [SEEK_THRESHOLD, lt_abs]),
    (seek_threshold_respect "alice" ⟨0, 2⟩ ⟨"abc", true, 1, 100, "bob"⟩
      ⟨initialRoomState, false, 0, "abc"⟩ (by decide) (by decide)
      (by decide)).2.1 (by norm_num [SEEK_THRESHOLD, abs_le])⟩

/-- Counterexample to claim C4 as stated: a fresh remote update carrying
video id "abc", different from the engine's known media id (which is the
empty string of the freshly mounted engine), does not produce a load —
the empty ref is first initialized to "abc" and the update then runs the
same-media branch, issuing a seek and a play instead. -/
theorem media_change_empty_ref_cx :
    ¬(⟨"abc", true, 50, 100, "bob"⟩ : RoomData).videoId
        = initialSyncState.currentVideoId
    ∧ (onRoomData "alice" (some ⟨0, 2⟩) ⟨"abc", true, 50, 100, "bob"⟩
          initialSyncState).2.1
        = [PlayerCmd.seekTo 50 true, PlayerCmd.playVideo] := by
  have habs : SEEK_THRESHOLD < |orZero (0 : ℚ) - 50| := by
    norm_num [SEEK_THRESHOLD, orZero, lt_abs]
  constructor
  · decide
  · simp [onRoomData, onRoomDataCore, afterInit, reconcileCmds,
      initialSyncState, initialRoomState, habs]

/-- Claim C4 (amended): a fresh remote update whose nonempty video id
differs from the engine's nonempty known media id commands only a load of
that media at the incoming position — no seek, no immediate play or
pause — and when the incoming state is paused an explicit pause is
scheduled after the 500 ms settle delay. -/
theorem media_change_load_only (u : String) (pl : Player) (d : RoomData)
    (s : SyncState)
    (hfresh : s.lastProcessedUpdate < d.lastUpdated)
    (hremote : ¬d.updatedBy = u)
    (hvid : ¬d.videoId = "")
    (hcvi : ¬s.currentVideoId = "")
    (hdiff : ¬d.videoId = s.currentVideoId) :
    (onRoomData u (some pl) d s).2.1
      = PlayerCmd.loadVideoById d.videoId d.currentTime ::
          (if d.isPlaying = true then [] else [PlayerCmd.delayedPause 500])
    ∧ (∀ x b, PlayerCmd.seekTo x b ∉ (onRoomData u (some pl) d s).2.1)
    ∧ PlayerCmd.playVideo ∉ (onRoomData u (some pl) d s).2.1
    ∧ PlayerCmd.pauseVideo ∉ (onRoomData u (some pl) d s).2.1
    ∧ (d.isPlaying = false →
        PlayerCmd.delayedPause 500 ∈ (onRoomData u (some pl) d s).2.1) := by
  have hinit : afterInit d s = s := afterInit_eq_of_ne d s hcvi
  have hcmds : (onRoomData u (some pl) d s).2.1 = loadCmds d := by
    unfold onRoomData
    rw [hinit, core_remote_load u pl d s hfresh hremote hvid hdiff]
  rw [hcmds]
  unfold loadCmds
  rw [orZero_self]
  refine ⟨rfl, ?_, ?_, ?_, ?_⟩
  · intro x b
    split_ifs <;> simp
  · split_ifs <;> simp
  · split_ifs <;> simp
  · intro h
    rw [h]
    simp

/-- Instance of C4 (amended) at concrete inputs: known id "old",
incoming paused update with id "new" at position 7 — exactly a load plus
the delayed pause. -/
theorem media_change_load_only_instance :
    (onRoomData "alice" (some ⟨0, 1⟩) ⟨"new", false, 7, 100, "bob"⟩
        ⟨initialRoomState, false, 0, "old"⟩).2.1
      = PlayerCmd.loadVideoById "new" 7 ::
          (if (false : Bool) = true then [] else [PlayerCmd.delayedPause 500])
    ∧ PlayerCmd.delayedPause 500
        ∈ (onRoomData "alice" (some ⟨0, 1⟩) ⟨"new", false, 7, 100, "bob"⟩
            ⟨initialRoomState, false, 0, "old"⟩).2.1 :=
  ⟨(media_change_load_only "alice" ⟨0, 1⟩ ⟨"new", false, 7, 100, "bob"⟩
      ⟨initialRoomState, false, 0, "old"⟩ (by decide) (by decide)
      (by decide) (by decide) (by decide)).1,
    (media_change_load_only "alice" ⟨0, 1⟩ ⟨"new", false, 7, 100, "bob"⟩
      ⟨initialRoomState, false, 0, "old"⟩ (by decide) (by decide)
      (by decide) (by decide) (by decide)).2.2.2.2 rfl⟩

/-- Counterexample to claim C5 as stated: an unsuppressed `sendPause`
whose store write fails leaves the local projection unchanged — it still
says playing — so the projection is not updated optimistically ahead of
the write, only the non-fatal error message is set. -/
theorem optimistic_update_cx :
    sendPause "ABC123" "alice" false 200 10
        ⟨⟨"abc", true, 5, 100, "bob"⟩, false, 100, "abc"⟩
      = (⟨⟨"abc", true, 5, 100, "bob"⟩, false, 100, "abc"⟩, none,
          some "Failed to sync video state")
    ∧ (⟨⟨"abc", true, 5, 100, "bob"⟩, false, 100, "abc"⟩
        : SyncState).roomState.isPlaying = true := by
  decide

/-- Claim C5 (amended): for an unsuppressed local-report call the merged
state is first written to the store and the local projection is updated
only when that write succeeds; when the write fails the projection is
left untouched — there is nothing to roll back — and the failure
surfaces only as the non-fatal message "Failed to sync video state". -/
theorem update_state_write_semantics (roomId userName : String) (now : ℕ)
    (p : UpdatePayload) (s : SyncState)
    (hsup : s.isRemoteUpdate = false)
    (hroom : ¬roomId = "") (huser : ¬userName = "") :
    updateState roomId userName true now p s
      = ({ s with roomState := mergedState userName now p s },
          some (mergedState userName now p s), none)
    ∧ updateState roomId userName false now p s
      = (s, none, some "Failed to sync video state") := by
  constructor <;>
    simp [updateState, hsup, hroom, huser]

/-- Instance of C5 (amended) at concrete inputs: an unsuppressed pause
publishes and applies the merged state when the write succeeds, and
leaves the state untouched with only the error message when it fails. -/
theorem update_state_write_semantics_instance :
    updateState "R" "alice" true 7 ⟨none, some false, some 10⟩
        ⟨⟨"abc", true, 5, 3, "bob"⟩, false, 3, "abc"⟩
      = ({ (⟨⟨"abc", true, 5, 3, "bob"⟩, false, 3, "abc"⟩ : SyncState) with
            roomState := mergedState "alice" 7 ⟨none, some false, some 10⟩
              ⟨⟨"abc", true, 5, 3, "bob"⟩, false, 3, "abc"⟩ },
          some (mergedState "alice" 7 ⟨none, some false, some 10⟩
            ⟨⟨"abc", true, 5, 3, "bob"⟩, false, 3, "abc"⟩), none)
    ∧ updateState "R" "alice" false 7 ⟨none, some false, some 10⟩
        ⟨⟨"abc", true, 5, 3, "bob"⟩, false, 3, "abc"⟩
      = (⟨⟨"abc", true, 5, 3, "bob"⟩, false, 3, "abc"⟩, none,
          some "Failed to sync video state") :=
  update_state_write_semantics "R" "alice" 7 ⟨none, some false, some 10⟩
    ⟨⟨"abc", true, 5, 3, "bob"⟩, false, 3, "abc"⟩ rfl (by decide) (by decide)

/-- With the second update arriving within the settle window of the
first, the timeline of flag events is: set, set, clear (first timer),
clear (second timer), in chronological order. -/
theorem settleTimeline_pair (t0 t1 D : ℕ) (h01 : t0 < t1)
    (h1D : t1 < t0 + D) :
    settleTimeline [t0, t1] D
      = [(t0, FlagEvent.set), (t1, FlagEvent.set),
          (t0 + D, FlagEvent.clear), (t1 + D, FlagEvent.clear)] := by
  have hDD : t0 + D < t1 + D := Nat.add_lt_add_right h01 D
  have e2 : insertEvent (t0 + D, FlagEvent.clear) [(t1 + D, FlagEvent.clear)]
      = [(t0 + D, FlagEvent.clear), (t1 + D, FlagEvent.clear)] := by
    simp [insertEvent, hDD]
  have e3 : insertEvent (t1, FlagEvent.set)
        [(t0 + D, FlagEvent.clear), (t1 + D, FlagEvent.clear)]
      = [(t1, FlagEvent.set), (t0 + D, FlagEvent.clear),
          (t1 + D, FlagEvent.clear)] := by
    simp [insertEvent, h1D]
  have e4 : insertEvent (t0, FlagEvent.set)
        [(t1, FlagEvent.set), (t0 + D, FlagEvent.clear),
          (t1 + D, FlagEvent.clear)]
      = [(t0, FlagEvent.set), (t1, FlagEvent.set),
          (t0 + D, FlagEvent.clear), (t1 + D, FlagEvent.clear)] := by
    simp [insertEvent, h01]
  unfold settleTimeline sortEvents
  simp only [List.map, List.cons_append, List.nil_append, List.foldr]
  rw [show insertEvent (t1 + D, FlagEvent.clear) [] = [(t1 + D, FlagEvent.clear)] from rfl,
    e2, e3, e4]

/-- Counterexample to claim C6 as stated: remote updates at times 0 and
900 with a 1000 ms settle delay — at time 1000 the first timer has fired
and suppression is off, although one full delay after the last update
only ends at 1900. -/
theorem settle_rearm_cx :
    suppressedAt [0, 900] 1000 1000 = false ∧ 1000 < 900 + 1000 := by
  decide

/-- Claim C6 (amended): for two remote updates less than one settle
delay apart, suppression is continuously in effect from the first update
only until one settle delay after the FIRST update; at that moment the
first timer fires and clears the flag unconditionally, even though the
second update is still inside its own settle window — re-arming does not
extend the suppression window. -/
theorem settle_window_first_timer (t0 t1 D : ℕ) (h01 : t0 < t1)
    (h1D : t1 < t0 + D) :
    (∀ q, t0 ≤ q → q < t0 + D → suppressedAt [t0, t1] D q = true)
    ∧ suppressedAt [t0, t1] D (t0 + D) = false := by
  have hDD : t0 + D < t1 + D := Nat.add_lt_add_right h01 D
  have htl := settleTimeline_pair t0 t1 D h01 h1D
  constructor
  · intro q hq0 hq1
    have hc1 : ¬(t0 + D ≤ q) := not_le.mpr hq1
    have hc2 : ¬(t1 + D ≤ q) := fun h => hc1 (le_trans (Nat.le_of_lt hDD) h)
    unfold suppressedAt
    rw [htl]
    by_cases h2 : t1 ≤ q
    · simp [List.filter, hq0, h2, hc1, hc2, applyEvent]
    · simp [List.filter, hq0, h2, hc1, hc2, applyEvent]
  · have hb0 : t0 ≤ t0 + D := Nat.le_add_right t0 D
    have hb1 : t1 ≤ t0 + D := Nat.le_of_lt h1D
    have hb2 : t0 + D ≤ t0 + D := Nat.le_refl _
    have hb3 : ¬(t1 + D ≤ t0 + D) := not_le.mpr hDD
    unfold suppressedAt
    rw [htl]
    simp [List.filter, hb0, hb1, hb2, hb3, applyEvent]

/-- Instance of C6 (amended) at concrete inputs: updates at 0 and 900
with delay 1000 — suppressed at 500, no longer suppressed at 1000. -/
theorem settle_window_first_timer_instance :
    suppressedAt [0, 900] 1000 500 = true
    ∧ suppressedAt [0, 900] 1000 1000 = false :=
  ⟨(settle_window_first_timer 0 900 1000 (by decide) (by decide)).1 500
      (by decide) (by decide),
    (settle_window_first_timer 0 900 1000 (by decide) (by decide)).2⟩

/-- Claim C7: the subscriber callback always receives the full message
set (a permutation of the snapshot) sorted ascending by timestamp; in
particular the two-message scenario with timestamps 100 and 105 is
delivered as the timestamp-100 message first under either store delivery
order. -/
theorem messages_sorted :
    (∀ stored, (subscribeToMessagesView stored).Perm (snapshotToList stored))
    ∧ (∀ stored, List.Sorted msgLe (subscribeToMessagesView stored))
    ∧ subscribeToMessagesView [("k2", ⟨"B", "yo", 105⟩), ("k1", ⟨"A", "hi", 100⟩)]
        = [⟨"k1", "A", "hi", 100⟩, ⟨"k2", "B", "yo", 105⟩]
    ∧ subscribeToMessagesView [("k1", ⟨"A", "hi", 100⟩), ("k2", ⟨"B", "yo", 105⟩)]
        = [⟨"k1", "A", "hi", 100⟩, ⟨"k2", "B", "yo", 105⟩] := by
  refine ⟨fun stored => ?_, fun stored => ?_, by decide, by decide⟩
  · exact List.perm_insertionSort msgLe (snapshotToList stored)
  · exact List.sorted_insertionSort msgLe (snapshotToList stored)

/-- Dropping a satisfied run twice is the same as dropping it once. -/
theorem dropWhile_idem {α : Type} (p : α → Bool) (l : List α) :
    List.dropWhile p (List.dropWhile p l) = List.dropWhile p l := by
  induction l with
  | nil => rfl
  | cons a l ih =>
      by_cases h : p a = true
      · rw [List.dropWhile_cons_of_pos h]
        exact ih
      · rw [List.dropWhile_cons_of_neg h, List.dropWhile_cons_of_neg h]

/-- `dropWhile` never lengthens a list. -/
theorem dropWhile_length_le {α : Type} (p : α → Bool) (l : List α) :
    (List.dropWhile p l).length ≤ l.length := by
  induction l with
  | nil => exact Nat.le_refl 0
  | cons a l ih =>
      by_cases h : p a = true
      · rw [List.dropWhile_cons_of_pos h]
        exact Nat.le_succ_of_le ih
      · rw [List.dropWhile_cons_of_neg h]

/-- A prefix of a list with no leading satisfied run has none either. -/
theorem dropWhile_eq_self_of_prefix {α : Type} (p : α → Bool)
    {l t : List α} (hl : List.dropWhile p l = l) (ht : t <+: l) :
    List.dropWhile p t = t := by
  cases t with
  | nil => rfl
  | cons a t2 =>
      obtain ⟨r, hr⟩ := ht
      cases l with
      | nil => simp at hr
      | cons b l2 =>
          rw [List.cons_append] at hr
          injection hr with hab htl
          by_cases hpb : p b = true
          · exfalso
            rw [List.dropWhile_cons_of_pos hpb] at hl
            have hlen := dropWhile_length_le p l2
            rw [hl] at hlen
            simp only [List.length_cons] at hlen
            omega
          · rw [hab, List.dropWhile_cons_of_neg hpb]

/-- `dropWhile` yields a suffix. -/
theorem dropWhile_isSuffix {α : Type} (p : α → Bool) (l : List α) :
    List.dropWhile p l <:+ l := by
  induction l with
  | nil => exact List.suffix_rfl
  | cons a l ih =>
      by_cases h : p a = true
      · rw [List.dropWhile_cons_of_pos h]
        exact ih.trans (List.suffix_cons a l)
      · rw [List.dropWhile_cons_of_neg h]

/-- Trimming is idempotent on character lists. -/
theorem jsTrimList_idem (l : List Char) :
    jsTrimList (jsTrimList l) = jsTrimList l := by
  have hAtrim : List.dropWhile isJsWs (List.dropWhile isJsWs l)
      = List.dropWhile isJsWs l := dropWhile_idem isJsWs l
  have hsuf : List.dropWhile isJsWs (List.dropWhile isJsWs l).reverse
      <:+ (List.dropWhile isJsWs l).reverse :=
    dropWhile_isSuffix isJsWs (List.dropWhile isJsWs l).reverse
  have hpref : (List.dropWhile isJsWs (List.dropWhile isJsWs l).reverse).reverse
      <+: List.dropWhile isJsWs l := by
    apply List.reverse_suffix.mp
    rw [List.reverse_reverse]
    exact hsuf
  have hBtrim : List.dropWhile isJsWs
        (List.dropWhile isJsWs (List.dropWhile isJsWs l).reverse).reverse
      = (List.dropWhile isJsWs (List.dropWhile isJsWs l).reverse).reverse :=
    dropWhile_eq_self_of_prefix isJsWs hAtrim hpref
  unfold jsTrimList
  rw [hBtrim, List.reverse_reverse, dropWhile_idem]

/-- JavaScript `trim` is idempotent. -/
theorem jsTrim_idem (s : String) : jsTrim (jsTrim s) = jsTrim s := by
  unfold jsTrim
  exact congrArg String.mk (jsTrimList_idem s.data)

set_option maxRecDepth 4000 in
/-- Counterexample to claim C8 as stated: a 501-character message passes
the send path — there is no upper length check in `sendChatMessage` or
`sendMessage` (the 500-character cap exists only as the chat input field
`maxLength` attribute in the ChatBox component). -/
theorem chat_length_cx :
    (String.mk (List.replicate 501 'a')).length = 501
    ∧ ¬sendChatMessage "ABC123" "alice"
        (String.mk (List.replicate 501 'a')) 7 = none := by
  decide

/-- Claim C8 (amended): the send path rejects blank text — text that is
empty or whitespace-only after trimming is never pushed — and any message
actually pushed carries the trimmed, nonempty text; no upper length bound
is enforced on this path. -/
theorem chat_send_validation (roomId userName text : String) (now : ℕ) :
    (jsTrim text = "" → sendChatMessage roomId userName text now = none)
    ∧ (∀ m, sendChatMessage roomId userName text now = some m →
        m.sender = userName ∧ m.text = jsTrim text ∧ ¬m.text = ""
          ∧ jsTrim m.text = m.text) := by
  constructor
  · intro h
    unfold sendChatMessage
    rw [if_pos (Or.inl h)]
  · intro m hm
    unfold sendChatMessage at hm
    by_cases hc : jsTrim text = "" ∨ roomId = "" ∨ userName = ""
    · rw [if_pos hc] at hm
      cases hm
    · rw [if_neg hc] at hm
      have hne : ¬jsTrim text = "" := fun h => hc (Or.inl h)
      obtain rfl : m = ⟨userName, jsTrim text, now⟩ := (Option.some.inj hm).symm
      exact ⟨rfl, rfl, hne, jsTrim_idem text⟩

/-- Instance of C8 (amended) at concrete inputs: whitespace-only text is
dropped, and a padded "hi" is pushed trimmed and nonempty. -/
theorem chat_send_validation_instance :
    sendChatMessage "ABC123" "alice" "   " 7 = none
    ∧ ¬(⟨"alice", "hi", 7⟩ : SentMessage).text = "" :=
  ⟨(chat_send_validation "ABC123" "alice" "   " 7).1 (by decide),
    ((chat_send_validation "ABC123" "alice" " hi " 7).2
      ⟨"alice", "hi", 7⟩ (by decide)).2.2.1⟩

/-- Claim C9: `extractVideoId` returns null on null, empty, or
whitespace-only input, and is the identity on inputs whose trimmed form
is exactly 11 characters of the class `[a-zA-Z0-9_-]`, for every
behaviour of the URL parser. -/
theorem extract_video_id_spec :
    (∀ parseUrl, extractVideoId parseUrl none = none)
    ∧ (∀ parseUrl s, jsTrim s = "" → extractVideoId parseUrl (some s) = none)
    ∧ (∀ parseUrl s, (jsTrim s).length = 11 →
        (jsTrim s).data.all isIdChar = true →
        extractVideoId parseUrl (some s) = some (jsTrim s)) := by
  refine ⟨fun parseUrl => rfl, fun parseUrl s h => ?_,
    fun parseUrl s h1 h2 => ?_⟩
  · simp only [extractVideoId]
    rw [if_pos (Or.inr h)]
  · have hne : ¬jsTrim s = "" := by
      intro h
      rw [h] at h1
      exact absurd h1 (by decide)
    have hse : ¬s = "" := by
      intro h
      subst h
      exact hne (by decide)
    simp only [extractVideoId]
    rw [if_neg (by rintro (h | h); exacts [hse h, hne h]),
      if_pos ⟨h1, h2⟩]

/-- Instance of C9 at concrete inputs: null and blank inputs give null,
and a padded canonical video id comes back trimmed. -/
theorem extract_video_id_spec_instance :
    extractVideoId (fun _ => none) none = none
    ∧ extractVideoId (fun _ => none) (some "   ") = none
    ∧ extractVideoId (fun _ => none) (some " dQw4w9WgXcQ ")
        = some (jsTrim " dQw4w9WgXcQ ") :=
  ⟨extract_video_id_spec.1 (fun _ => none),
    extract_video_id_spec.2.1 (fun _ => none) "   " (by decide),
    extract_video_id_spec.2.2 (fun _ => none) " dQw4w9WgXcQ "
      (by decide) (by decide)⟩

/-- Claim C10: within one subscription the processed-update watermark
starts at 0 and is monotonically non-decreasing: each delivery either
leaves `lastProcessedUpdate` unchanged or reassigns it to a
`d.lastUpdated` that strictly passed the staleness check, and any
sequence of deliveries can only raise it. -/
theorem last_processed_monotone :
    initialSyncState.lastProcessedUpdate = 0
    ∧ (∀ u p d s,
        (onRoomData u p d s).1.lastProcessedUpdate = s.lastProcessedUpdate
        ∨ (s.lastProcessedUpdate < d.lastUpdated
            ∧ (onRoomData u p d s).1.lastProcessedUpdate = d.lastUpdated))
    ∧ (∀ u p s (l : List RoomData),
        s.lastProcessedUpdate
          ≤ (List.foldl (fun st dd => (onRoomData u p dd st).1) s
              l).lastProcessedUpdate) := by
  have step : ∀ (u : String) (p : Option Player) (d : RoomData)
      (s : SyncState),
      (onRoomData u p d s).1.lastProcessedUpdate = s.lastProcessedUpdate
      ∨ (s.lastProcessedUpdate < d.lastUpdated
          ∧ (onRoomData u p d s).1.lastProcessedUpdate = d.lastUpdated) := by
    intro u p d s
    unfold onRoomData
    rcases core_lpu u p d (afterInit d s) with ⟨he, _⟩ | ⟨he, hlt⟩
    · left
      rw [he, afterInit_lastProcessedUpdate]
    · right
      rw [afterInit_lastProcessedUpdate] at hlt
      exact ⟨hlt, he⟩
  have mono : ∀ (u : String) (p : Option Player) (d : RoomData)
      (s : SyncState),
      s.lastProcessedUpdate ≤ (onRoomData u p d s).1.lastProcessedUpdate := by
    intro u p d s
    rcases step u p d s with he | ⟨hlt, he⟩
    · rw [he]
    · rw [he]
      exact Nat.le_of_lt hlt
  refine ⟨rfl, step, ?_⟩
  intro u p s l
  induction l generalizing s with
  | nil => exact Nat.le_refl _
  | cons d l ih =>
      simp only [List.foldl]
      exact le_trans (mono u p d s) (ih _)

end IamThere
